import Mathlib

/-!
Shallow embedding of the fusedev transport layer (`src/transport/fusedev/mod.rs`):
the `Writer` with split-buffer and atomic-commit semantics, and the single-region
request `Reader`.  Bytes are modelled as natural numbers; the device and the
byte-producing sources are modelled as response scripts together with a trace of
the device calls issued, so that "exactly one device write of these bytes" is a
statement about the trace.
-/

deriving instance DecidableEq for Except

namespace FuseDev

/-- A byte of a request/response message. -/
abbrev Byte := Nat

/-- The error kinds of `std::io::Error` that the transport produces or inspects.
`fromRawOs errno` models `io::Error::from_raw_os_error`. -/
inductive IoErr
  | invalidData
  | writeZero
  | interrupted
  | unexpectedEof
  | other
  | fromRawOs (errno : Nat)
deriving DecidableEq, Repr

/-- `e.kind() == ErrorKind::Interrupted`; errno 4 is EINTR. -/
def IoErr.isInterrupted : IoErr → Bool
  | .interrupted => true
  | .fromRawOs n => n == 4
  | _ => false

/-- A call issued against the fuse device descriptor: the synchronous `write`
and `writev` syscalls, and the async driver's `write`/`write2`/`write3`. -/
inductive DevCall
  | write (fd : Nat) (data : List Byte)
  | writev (fd : Nat) (bufs : List (List Byte))
  | awrite (fd : Nat) (data : List Byte) (off : Nat)
  | awrite2 (fd : Nat) (data data2 : List Byte) (off : Nat)
  | awrite3 (fd : Nat) (data data2 data3 : List Byte) (off : Nat)
deriving DecidableEq, Repr

/-- Total number of bytes a device call asks to transfer. -/
def DevCall.reqLen : DevCall → Nat
  | .write _ data => data.length
  | .writev _ bufs => bufs.foldl (fun acc b => acc + b.length) 0
  | .awrite _ data _ => data.length
  | .awrite2 _ data data2 _ => data.length + data2.length
  | .awrite3 _ data data2 data3 _ => data.length + data2.length + data3.length

/-- The ordered list of byte buffers a device call submits. -/
def DevCall.payload : DevCall → List (List Byte)
  | .write _ data => [data]
  | .writev _ bufs => bufs
  | .awrite _ data _ => [data]
  | .awrite2 _ data data2 _ => [data, data2]
  | .awrite3 _ data data2 data3 _ => [data, data2, data3]

/-- The device / async driver: a script of responses (indexed by call number and
the call itself; `.ok n` is the transferred byte count, `.error e` an errno),
the index of the next call, and the trace of calls issued so far. -/
structure Dev where
  resp : Nat → DevCall → Except Nat Nat
  idx : Nat
  trace : List DevCall

/-- Issue one device call: look up the scripted response, advance the call
index and record the call in the trace. -/
def Dev.call (d : Dev) (c : DevCall) : Except Nat Nat × Dev :=
  (d.resp d.idx c, ⟨d.resp, d.idx + 1, d.trace ++ [c]⟩)

/-- A device never reports more transferred bytes than the call submitted
(the `write`/`writev` syscall contract). -/
def GoodDev (resp : Nat → DevCall → Except Nat Nat) : Prop :=
  ∀ i c n, resp i c = Except.ok n → n ≤ c.reqLen

/-- A byte-producing source (`FileReadWriteVolatile` / the async driver's read):
a script of read responses, each an I/O error or the bytes produced. -/
structure Src where
  resp : Nat → Except IoErr (List Byte)
  idx : Nat

/-- One read of at most `count` bytes from the source: the scripted response,
truncated to the `count`-byte destination window. -/
def Src.read (s : Src) (count : Nat) : Except IoErr (List Byte) × Src :=
  ((s.resp s.idx).map (fun l => l.take count), ⟨s.resp, s.idx + 1⟩)

/-- Outcome of an operation on `&mut self`: a value, an `io::Error`, a panic
(a failed `assert!`), or fuel exhaustion of a retry loop. -/
inductive Outcome (α : Type)
  | ok (a : α)
  | err (e : IoErr)
  | panic
  | diverge
deriving DecidableEq, Repr

/-- The response `Writer` (`struct Writer` of the source).  `mem` is the
underlying destination region (`data_buf`, of length `capacity`), and `len` is
the length of the internal `Vec`, i.e. `bytes_written`. -/
structure Writer where
  fd : Nat
  buffered : Bool
  mem : List Byte
  len : Nat
deriving DecidableEq, Repr

/-- `Writer::new(fd, data_buf)`: zero bytes written, not buffered, the region
itself becomes the accumulation buffer. -/
def Writer.new (fd : Nat) (dataBuf : List Byte) : Writer :=
  ⟨fd, false, dataBuf, 0⟩

/-- `self.buf.capacity()`. -/
def Writer.capacity (w : Writer) : Nat := w.mem.length

/-- `Writer::bytes_written`: `self.buf.len()`. -/
def Writer.bytes_written (w : Writer) : Nat := w.len

/-- `Writer::available_bytes`: `self.buf.capacity() - self.buf.len()`. -/
def Writer.available_bytes (w : Writer) : Nat := w.mem.length - w.len

/-- `self.buf.as_slice()`: the valid prefix of the region. -/
def Writer.bufSlice (w : Writer) : List Byte := w.mem.take w.len

/-- Overwrite `mem` at position `pos` with `data`
(`extend_from_slice` / a raw copy into the tail of the buffer). -/
def writeAt (mem : List Byte) (pos : Nat) (data : List Byte) : List Byte :=
  mem.take pos ++ data ++ mem.drop (pos + data.length)

/-- The transport `Error` enum of the source (payloads simplified to what the
claims need). -/
inductive TransportError
  | DescriptorChainOverflow
  | FindMemoryRegion
  | InvalidChain
  | IoError (e : IoErr)
  | SplitOutOfBounds (off : Nat)
  | VolatileMemoryError
  | SessionFailure
deriving DecidableEq, Repr

/-- `Writer::split_at(offset)`: error when `self.buf.capacity() < offset`;
otherwise the prefix keeps `min(len, offset)` written bytes and capacity
`offset`, the suffix gets the rest, and both become buffered. -/
def Writer.split_at (w : Writer) (offset : Nat) :
    Except TransportError (Writer × Writer) :=
  if w.mem.length < offset then
    Except.error (TransportError.SplitOutOfBounds offset)
  else
    let lens : Nat × Nat :=
      if offset < w.len then (offset, w.len - offset) else (w.len, 0)
    Except.ok
      ({ w with buffered := true, mem := w.mem.take offset, len := lens.1 },
       { fd := w.fd, buffered := true, mem := w.mem.drop offset, len := lens.2 })

/-- Result of `check_available_space`: the `assert!` may panic, the bounds
check may return `InvalidData`, otherwise the space is available. -/
inductive Check
  | panic
  | errInvalidData
  | ok
deriving DecidableEq, Repr

/-- `Writer::check_available_space`: `assert!(self.buffered || self.buf.len() == 0)`
then `sz > self.available_bytes()` is `InvalidData`. -/
def Writer.check_available_space (w : Writer) (sz : Nat) : Check :=
  if w.buffered = true ∨ w.len = 0 then
    if w.available_bytes < sz then Check.errInvalidData else Check.ok
  else Check.panic

/-- `Writer::do_write(fd, data)`: one `write` syscall; any device error is
reported as a fresh error of kind `Other`. -/
def do_write (fd : Nat) (data : List Byte) (d : Dev) : Except IoErr Nat × Dev :=
  let r := d.call (DevCall.write fd data)
  (r.1.mapError (fun _ => IoErr.other), r.2)

/-- `io::Write::write` for `Writer`: bounds check, then either append to the
internal buffer or write straight through to the device. -/
def Writer.write (w : Writer) (data : List Byte) (d : Dev) :
    Outcome Nat × Writer × Dev :=
  match w.check_available_space data.length with
  | .panic => (.panic, w, d)
  | .errInvalidData => (.err .invalidData, w, d)
  | .ok =>
    if w.buffered then
      (.ok data.length,
       { w with mem := writeAt w.mem w.len data, len := w.len + data.length }, d)
    else
      match do_write w.fd data d with
      | (.ok x, d') => (.ok x, { w with len := w.len + x }, d')
      | (.error e, d') => (.err e, w, d')

/-- `io::Write::write_vectored` for `Writer`: bounds check on the summed
length, then append each non-empty slice, or issue one `writev` of the
non-empty slices (`Ok(0)` if all slices are empty). -/
def Writer.write_vectored (w : Writer) (bufs : List (List Byte)) (d : Dev) :
    Outcome Nat × Writer × Dev :=
  match w.check_available_space (bufs.foldl (fun acc x => acc + x.length) 0) with
  | .panic => (.panic, w, d)
  | .errInvalidData => (.err .invalidData, w, d)
  | .ok =>
    let nb := bufs.filter (fun b => !b.isEmpty)
    if w.buffered then
      let count := nb.foldl (fun acc b => acc + b.length) 0
      (.ok count,
       { w with mem := writeAt w.mem w.len nb.flatten, len := w.len + count }, d)
    else
      if nb.isEmpty then (.ok 0, w, d)
      else
        match d.call (DevCall.writev w.fd nb) with
        | (.ok x, d') => (.ok x, { w with len := w.len + x }, d')
        | (.error _, d') => (.err .other, w, d')

/-- `io::Write::write_all` (the std default used by `write_obj`): loop `write`,
`WriteZero` on a zero-length write, retry on `Interrupted`. -/
def Writer.write_all : Nat → Writer → List Byte → Dev → Outcome Unit × Writer × Dev
  | 0, w, data, d => if data.isEmpty then (.ok (), w, d) else (.diverge, w, d)
  | fuel + 1, w, data, d =>
    if data.isEmpty then (.ok (), w, d)
    else
      match w.write data d with
      | (.ok 0, w', d') => (.err .writeZero, w', d')
      | (.ok (n + 1), w', d') => Writer.write_all fuel w' (data.drop (n + 1)) d'
      | (.err e, w', d') =>
        if e.isInterrupted then Writer.write_all fuel w' data d'
        else (.err e, w', d')
      | (.panic, w', d') => (.panic, w', d')
      | (.diverge, w', d') => (.diverge, w', d')

/-- `Writer::write_obj(val)`: `write_all` of the raw bytes of the value. -/
def Writer.write_obj (w : Writer) (valBytes : List Byte) (d : Dev) (fuel : Nat) :
    Outcome Unit × Writer × Dev :=
  Writer.write_all fuel w valBytes d

/-- `Writer::write_from(src, count)`: bounds check, read up to `count` bytes
from the source into the buffer tail, then (unbuffered) write the accumulated
prefix through to the device. -/
def Writer.write_from (w : Writer) (s : Src) (count : Nat) (d : Dev) :
    Outcome Nat × Writer × Src × Dev :=
  match w.check_available_space count with
  | .panic => (.panic, w, s, d)
  | .errInvalidData => (.err .invalidData, w, s, d)
  | .ok =>
    match s.read count with
    | (.error e, s') => (.err e, w, s', d)
    | (.ok bytes, s') =>
      let cnt := bytes.length
      let w' := { w with mem := writeAt w.mem w.len bytes, len := w.len + cnt }
      if w.buffered then (.ok cnt, w', s', d)
      else
        match do_write w.fd (w'.mem.take cnt) d with
        | (.ok n, d') => (.ok n, w', s', d')
        | (.error e, d') => (.err e, w', s', d')

/-- `Writer::write_from_at(src, count, off)`: as `write_from` but the source
read is positioned at `off`; the offset does not affect the buffer logic. -/
def Writer.write_from_at (w : Writer) (s : Src) (count : Nat) (_off : Nat)
    (d : Dev) : Outcome Nat × Writer × Src × Dev :=
  match w.check_available_space count with
  | .panic => (.panic, w, s, d)
  | .errInvalidData => (.err .invalidData, w, s, d)
  | .ok =>
    match s.read count with
    | (.error e, s') => (.err e, w, s', d)
    | (.ok bytes, s') =>
      let cnt := bytes.length
      let w' := { w with mem := writeAt w.mem w.len bytes, len := w.len + cnt }
      if w.buffered then (.ok cnt, w', s', d)
      else
        match do_write w.fd (w'.mem.take cnt) d with
        | (.ok n, d') => (.ok n, w', s', d')
        | (.error e, d') => (.err e, w', s', d')

/-- The `while count > 0` loop of `Writer::write_all_from`. -/
def writeAllFromLoop : Nat → Nat → Writer → Src → Dev →
    Outcome Unit × Writer × Src × Dev
  | 0, count, w, s, d =>
    if count = 0 then (.ok (), w, s, d) else (.diverge, w, s, d)
  | fuel + 1, count, w, s, d =>
    if count = 0 then (.ok (), w, s, d)
    else
      match w.write_from s count d with
      | (.ok 0, w', s', d') => (.err .writeZero, w', s', d')
      | (.ok (n + 1), w', s', d') =>
        writeAllFromLoop fuel (count - (n + 1)) w' s' d'
      | (.err e, w', s', d') =>
        if e.isInterrupted then writeAllFromLoop fuel count w' s' d'
        else (.err e, w', s', d')
      | (.panic, w', s', d') => (.panic, w', s', d')
      | (.diverge, w', s', d') => (.diverge, w', s', d')

/-- `Writer::write_all_from(src, count)`: bounds check once, then loop
`write_from` until `count` bytes are transferred. -/
def Writer.write_all_from (w : Writer) (s : Src) (count : Nat) (d : Dev)
    (fuel : Nat) : Outcome Unit × Writer × Src × Dev :=
  match w.check_available_space count with
  | .panic => (.panic, w, s, d)
  | .errInvalidData => (.err .invalidData, w, s, d)
  | .ok => writeAllFromLoop fuel count w s d

/-- `Writer::commit(other)`: a no-op returning 0 unless buffered; otherwise at
most one device write — single-buffer if only one side has bytes, one `writev`
of `self`'s bytes then `other`'s bytes if both do.  Device errnos are surfaced
via `io::Error::from_raw_os_error`.  The writer itself is not modified. -/
def Writer.commit (w : Writer) (other : Option Writer) (d : Dev) :
    Except IoErr Nat × Writer × Dev :=
  if w.buffered = false then (Except.ok 0, w, d)
  else
    let o := (other.map Writer.bufSlice).getD []
    let r : Except Nat Nat × Dev :=
      if w.len = 0 then
        if o.length = 0 then (Except.ok 0, d)
        else d.call (DevCall.write w.fd o)
      else
        if o.length = 0 then d.call (DevCall.write w.fd w.bufSlice)
        else d.call (DevCall.writev w.fd [w.bufSlice, o])
    (r.1.mapError IoErr.fromRawOs, w, r.2)

/-- Modelled from the spec: the async driver collaborator (`AsyncUtil::write`,
from the out-of-scope `async_util` module) submits one buffer at an offset and
returns the transferred byte count or an I/O error; driver failures are
surfaced as OS errors. -/
def AsyncUtil.write (d : Dev) (fd : Nat) (data : List Byte) (off : Nat) :
    Except IoErr Nat × Dev :=
  let r := d.call (DevCall.awrite fd data off)
  (r.1.mapError IoErr.fromRawOs, r.2)

/-- Modelled from the spec: `AsyncUtil::write2` submits two pre-combined
buffers in order in one driver call. -/
def AsyncUtil.write2 (d : Dev) (fd : Nat) (data data2 : List Byte) (off : Nat) :
    Except IoErr Nat × Dev :=
  let r := d.call (DevCall.awrite2 fd data data2 off)
  (r.1.mapError IoErr.fromRawOs, r.2)

/-- Modelled from the spec: `AsyncUtil::write3` submits three pre-combined
buffers in order in one driver call. -/
def AsyncUtil.write3 (d : Dev) (fd : Nat) (data data2 data3 : List Byte)
    (off : Nat) : Except IoErr Nat × Dev :=
  let r := d.call (DevCall.awrite3 fd data data2 data3 off)
  (r.1.mapError IoErr.fromRawOs, r.2)

/-- `Writer::async_write`: same bounds check and buffered dispatch as `write`,
with the device transfer routed through the async driver; driver errors are
reported as a fresh error of kind `Other`. -/
def Writer.async_write (w : Writer) (data : List Byte) (d : Dev) :
    Outcome Nat × Writer × Dev :=
  match w.check_available_space data.length with
  | .panic => (.panic, w, d)
  | .errInvalidData => (.err .invalidData, w, d)
  | .ok =>
    if w.buffered then
      (.ok data.length,
       { w with mem := writeAt w.mem w.len data, len := w.len + data.length }, d)
    else
      match AsyncUtil.write d w.fd data 0 with
      | (.ok x, d') => (.ok x, { w with len := w.len + x }, d')
      | (.error _, d') => (.err .other, w, d')

/-- `Writer::async_write2`: bounds check on the combined length, then append
both buffers or one two-buffer driver write. -/
def Writer.async_write2 (w : Writer) (data data2 : List Byte) (d : Dev) :
    Outcome Nat × Writer × Dev :=
  match w.check_available_space (data.length + data2.length) with
  | .panic => (.panic, w, d)
  | .errInvalidData => (.err .invalidData, w, d)
  | .ok =>
    if w.buffered then
      (.ok (data.length + data2.length),
       { w with mem := writeAt w.mem w.len (data ++ data2),
                len := w.len + (data.length + data2.length) }, d)
    else
      match AsyncUtil.write2 d w.fd data data2 0 with
      | (.ok x, d') => (.ok x, { w with len := w.len + x }, d')
      | (.error _, d') => (.err .other, w, d')

/-- `Writer::async_write3`: bounds check on the combined length, then append
all three buffers or one three-buffer driver write. -/
def Writer.async_write3 (w : Writer) (data data2 data3 : List Byte) (d : Dev) :
    Outcome Nat × Writer × Dev :=
  match w.check_available_space (data.length + data2.length + data3.length) with
  | .panic => (.panic, w, d)
  | .errInvalidData => (.err .invalidData, w, d)
  | .ok =>
    if w.buffered then
      (.ok (data.length + data2.length + data3.length),
       { w with mem := writeAt w.mem w.len (data ++ data2 ++ data3),
                len := w.len + (data.length + data2.length + data3.length) }, d)
    else
      match AsyncUtil.write3 d w.fd data data2 data3 0 with
      | (.ok x, d') => (.ok x, { w with len := w.len + x }, d')
      | (.error _, d') => (.err .other, w, d')

/-- `Writer::async_write_all`: loop `async_write`, `WriteZero` on a zero-length
write, retry on `Interrupted`. -/
def Writer.async_write_all : Nat → Writer → List Byte → Dev →
    Outcome Unit × Writer × Dev
  | 0, w, data, d => if data.isEmpty then (.ok (), w, d) else (.diverge, w, d)
  | fuel + 1, w, data, d =>
    if data.isEmpty then (.ok (), w, d)
    else
      match w.async_write data d with
      | (.ok 0, w', d') => (.err .writeZero, w', d')
      | (.ok (n + 1), w', d') => Writer.async_write_all fuel w' (data.drop (n + 1)) d'
      | (.err e, w', d') =>
        if e.isInterrupted then Writer.async_write_all fuel w' data d'
        else (.err e, w', d')
      | (.panic, w', d') => (.panic, w', d')
      | (.diverge, w', d') => (.diverge, w', d')

/-- `Writer::async_write_from_at(src, count, off)`: bounds check, read up to
`count` bytes from the source (`AsyncUtil::read`, modelled by the source
script) into the buffer tail, then (unbuffered) one driver write of the
accumulated prefix, whose errors propagate unchanged. -/
def Writer.async_write_from_at (w : Writer) (s : Src) (count : Nat)
    (_off : Nat) (d : Dev) : Outcome Nat × Writer × Src × Dev :=
  match w.check_available_space count with
  | .panic => (.panic, w, s, d)
  | .errInvalidData => (.err .invalidData, w, s, d)
  | .ok =>
    match s.read count with
    | (.error e, s') => (.err e, w, s', d)
    | (.ok bytes, s') =>
      let cnt := bytes.length
      let w' := { w with mem := writeAt w.mem w.len bytes, len := w.len + cnt }
      if w.buffered then (.ok cnt, w', s', d)
      else
        match AsyncUtil.write d w.fd (w'.mem.take cnt) 0 with
        | (.ok n, d') => (.ok n, w', s', d')
        | (.error e, d') => (.err e, w', s', d')

/-- `Writer::async_commit(other)`: unlike `commit`, there is no `buffered`
check — the case split is only on which of the two buffers hold bytes; driver
errors propagate unchanged.  The writer itself is not modified. -/
def Writer.async_commit (w : Writer) (other : Option Writer) (d : Dev) :
    Except IoErr Nat × Writer × Dev :=
  let o := (other.map Writer.bufSlice).getD []
  let r : Except IoErr Nat × Dev :=
    if w.len = 0 then
      if o.length = 0 then (Except.ok 0, d)
      else AsyncUtil.write d w.fd o 0
    else
      if o.length = 0 then AsyncUtil.write d w.fd w.bufSlice 0
      else AsyncUtil.write2 d w.fd w.bufSlice o 0
  (r.1, w, r.2)

/-- The request `Reader` (`Reader::new` wraps one `FuseBuf` as a single-region
sequence with zero bytes consumed); `data` is the one region. -/
structure Reader where
  data : List Byte
  bytes_consumed : Nat
deriving DecidableEq, Repr

/-- `Reader::new(buf)`: one region, zero bytes consumed. -/
def Reader.new (buf : List Byte) : Reader := ⟨buf, 0⟩

/-- `Reader::bytes_read`. -/
def Reader.bytes_read (r : Reader) : Nat := r.bytes_consumed

/-- `Reader::available_bytes`. -/
def Reader.available_bytes (r : Reader) : Nat :=
  r.data.length - r.bytes_consumed

/-- Modelled from the spec: `io::Read::read` for `Reader` (implemented in the
parent transport module, not under `src/`) copies up to `dstLen` bytes from the
current position and advances the cursor by the number copied — a short read
when the region is exhausted, not an error. -/
def Reader.read (r : Reader) (dstLen : Nat) : List Byte × Reader :=
  let bs := (r.data.drop r.bytes_consumed).take dstLen
  (bs, { r with bytes_consumed := r.bytes_consumed + bs.length })

/-- Modelled from the spec: `Reader::read_exact_to` (parent transport module,
not under `src/`) fails with `UnexpectedEof` when fewer than `count` bytes
remain, leaving the cursor unchanged; otherwise consumes exactly `count`. -/
def Reader.read_exact_to (r : Reader) (count : Nat) : Except IoErr Reader :=
  if r.available_bytes < count then Except.error IoErr.unexpectedEof
  else Except.ok { r with bytes_consumed := r.bytes_consumed + count }

/-- Modelled from the spec: `IoBuffers::allocate_io_slice(count)` (the shared
multi-region reader infrastructure, not under `src/`) returns the slices
covering up to `count` unconsumed bytes; with the single region of
`Reader::new` this is at most one slice, and none when nothing remains. -/
def Reader.allocate_io_slice (r : Reader) (count : Nat) : List (List Byte) :=
  let bs := (r.data.drop r.bytes_consumed).take count
  if bs.isEmpty then [] else [bs]

/-- Modelled from the spec: `IoBuffers::mark_used(count)` advances the
consumed-byte accounting by `count`. -/
def Reader.mark_used (r : Reader) (count : Nat) : Reader :=
  { r with bytes_consumed := r.bytes_consumed + count }

/-- `Reader::async_read_to_at(dst, count, off)`: `Ok(0)` when no slice remains;
one driver transfer of the single slice otherwise; the multi-buffer branch is
the source's `panic!("fusedev: only one data buffer is supported")`. -/
def Reader.async_read_to_at (r : Reader) (dst : Nat) (count : Nat) (off : Nat)
    (d : Dev) : Outcome (Nat × Reader) × Dev :=
  match r.allocate_io_slice count with
  | [] => (.ok (0, r), d)
  | [b] =>
    match AsyncUtil.write d dst b off with
    | (.ok n, d') => (.ok (n, r.mark_used n), d')
    | (.error e, d') => (.err e, d')
  | _ => (.panic, d)


/-- Well-formedness of a writer: the valid prefix fits in the region. -/
def Writer.wf (w : Writer) : Prop := w.len ≤ w.mem.length

instance (w : Writer) : Decidable w.wf := by unfold Writer.wf; infer_instance

/-- The accounting invariant of the spec:
`bytes_written + available_bytes = capacity` and `bytes_written ≤ capacity`. -/
def Writer.inv (w : Writer) : Prop :=
  w.bytes_written + w.available_bytes = w.capacity ∧
    w.bytes_written ≤ w.capacity

instance (w : Writer) : Decidable w.inv := by unfold Writer.inv; infer_instance

lemma writeAt_length (mem : List Byte) (pos : Nat) (data : List Byte)
    (h : pos + data.length ≤ mem.length) :
    (writeAt mem pos data).length = mem.length := by
  simp [writeAt]
  omega

lemma check_ok_iff (w : Writer) (sz : Nat) :
    w.check_available_space sz = Check.ok ↔
      ((w.buffered = true ∨ w.len = 0) ∧ sz ≤ w.available_bytes) := by
  unfold Writer.check_available_space
  by_cases h1 : (w.buffered = true ∨ w.len = 0)
  · by_cases h2 : w.available_bytes < sz <;> simp [h1, h2] <;> omega
  · simp [h1]

lemma do_write_spec (fd : Nat) (data : List Byte) (d : Dev) :
    do_write fd data d =
      ((d.resp d.idx (DevCall.write fd data)).mapError (fun _ => IoErr.other),
       ⟨d.resp, d.idx + 1, d.trace ++ [DevCall.write fd data]⟩) := rfl

lemma wf_write (w : Writer) (data : List Byte) (d : Dev)
    (hw : w.wf) (hd : GoodDev d.resp) :
    ((w.write data d).2.1).wf ∧ ((w.write data d).2.2).resp = d.resp := by
  unfold Writer.write
  cases hc : w.check_available_space data.length with
  | panic => exact ⟨hw, rfl⟩
  | errInvalidData => exact ⟨hw, rfl⟩
  | ok =>
    rw [check_ok_iff] at hc
    obtain ⟨hc1, hc2⟩ := hc
    unfold Writer.available_bytes at hc2
    unfold Writer.wf at hw
    by_cases hb : w.buffered = true
    · simp only [hb, if_true]
      refine ⟨?_, by trivial⟩
      show w.len + data.length ≤ (writeAt w.mem w.len data).length
      rw [writeAt_length _ _ _ (by omega)]
      omega
    · simp only [hb, if_false]
      cases he : d.resp d.idx (DevCall.write w.fd data) with
      | ok x =>
        have hx := hd _ _ _ he
        simp only [DevCall.reqLen] at hx
        simp only [do_write_spec, he, Except.mapError]
        refine ⟨?_, by trivial⟩
        show w.len + x ≤ w.mem.length
        omega
      | error e =>
        simp only [do_write_spec, he, Except.mapError]
        exact ⟨hw, by trivial⟩


lemma foldl_add_length (l : List (List Byte)) (a : Nat) :
    l.foldl (fun acc b => acc + b.length) a = a + l.flatten.length := by
  induction l generalizing a with
  | nil => simp
  | cons b t ih => simp [List.foldl_cons, ih]; omega

lemma flatten_filter_ne (l : List (List Byte)) :
    (l.filter (fun b => !b.isEmpty)).flatten = l.flatten := by
  induction l with
  | nil => rfl
  | cons b t ih => cases b <;> simp [List.filter_cons, ih]

lemma wf_write_vectored (w : Writer) (bufs : List (List Byte)) (d : Dev)
    (hw : w.wf) (hd : GoodDev d.resp) :
    ((w.write_vectored bufs d).2.1).wf ∧
      ((w.write_vectored bufs d).2.2).resp = d.resp := by
  unfold Writer.write_vectored
  cases hc : w.check_available_space (bufs.foldl (fun acc x => acc + x.length) 0) with
  | panic => exact ⟨hw, by trivial⟩
  | errInvalidData => exact ⟨hw, by trivial⟩
  | ok =>
    rw [check_ok_iff] at hc
    obtain ⟨hc1, hc2⟩ := hc
    rw [foldl_add_length] at hc2
    unfold Writer.available_bytes at hc2
    unfold Writer.wf at hw
    simp only [Nat.zero_add] at hc2
    by_cases hb : w.buffered = true
    · simp only [hb, if_true]
      refine ⟨?_, by trivial⟩
      show w.len + (bufs.filter (fun b => !b.isEmpty)).foldl (fun acc b => acc + b.length) 0 ≤ _
      rw [foldl_add_length, flatten_filter_ne, Nat.zero_add]
      rw [writeAt_length]
      · omega
      · omega
    · simp only [hb, if_false]
      by_cases hnb : (bufs.filter (fun b => !b.isEmpty)).isEmpty = true
      · simp only [hnb, if_true]
        exact ⟨hw, by trivial⟩
      · simp only [hnb, if_false]
        cases he : d.resp d.idx (DevCall.writev w.fd (bufs.filter (fun b => !b.isEmpty))) with
        | ok x =>
          have hx := hd _ _ _ he
          simp only [DevCall.reqLen] at hx
          rw [foldl_add_length, flatten_filter_ne, Nat.zero_add] at hx
          simp only [Dev.call, he]
          refine ⟨?_, by trivial⟩
          show w.len + x ≤ w.mem.length
          omega
        | error e =>
          simp only [Dev.call, he]
          exact ⟨hw, by trivial⟩

lemma wf_write_all (fuel : Nat) :
    ∀ w data d, Writer.wf w → GoodDev d.resp →
      ((Writer.write_all fuel w data d).2.1).wf ∧
        ((Writer.write_all fuel w data d).2.2).resp = d.resp := by
  induction fuel with
  | zero =>
    intro w data d hw _
    unfold Writer.write_all
    split <;> exact ⟨hw, by trivial⟩
  | succ n ih =>
    intro w data d hw hd
    unfold Writer.write_all
    by_cases he : data.isEmpty = true
    · simp only [he, if_true]; exact ⟨hw, by trivial⟩
    · simp only [he, if_false]
      rcases hr : w.write data d with ⟨r, w', d'⟩
      have hwr := wf_write w data d hw hd
      rw [hr] at hwr
      obtain ⟨hw', hd'⟩ := hwr
      cases r with
      | ok k =>
        cases k with
        | zero => exact ⟨hw', hd'⟩
        | succ m =>
          have := ih w' (data.drop (m + 1)) d' hw' (hd' ▸ hd)
          exact ⟨this.1, this.2.trans hd'⟩
      | err e =>
        by_cases hi : e.isInterrupted = true
        · simp only [hi, if_true]
          have := ih w' data d' hw' (hd' ▸ hd)
          exact ⟨this.1, this.2.trans hd'⟩
        · simp only [hi, if_false]
          exact ⟨hw', hd'⟩
      | panic => exact ⟨hw', hd'⟩
      | diverge => exact ⟨hw', hd'⟩

lemma src_read_resp (s : Src) (count : Nat) : ((s.read count).2).resp = s.resp := rfl

lemma wf_write_from (w : Writer) (s : Src) (count : Nat) (d : Dev)
    (hw : w.wf) :
    ((w.write_from s count d).2.1).wf ∧
      ((w.write_from s count d).2.2.2).resp = d.resp ∧
      ((w.write_from s count d).2.2.1).resp = s.resp := by
  unfold Writer.write_from
  cases hc : w.check_available_space count with
  | panic => exact ⟨hw, by trivial, by trivial⟩
  | errInvalidData => exact ⟨hw, by trivial, by trivial⟩
  | ok =>
    rw [check_ok_iff] at hc
    obtain ⟨hc1, hc2⟩ := hc
    unfold Writer.available_bytes at hc2
    unfold Writer.wf at hw
    rcases hs : s.read count with ⟨rs, s'⟩
    have hs' : s'.resp = s.resp := by
      have := src_read_resp s count
      rw [hs] at this
      exact this
    cases rs with
    | error e => exact ⟨hw, by trivial, hs'⟩
    | ok bytes =>
      have hbl : bytes.length ≤ count := by
        unfold Src.read at hs
        cases ht : s.resp s.idx with
        | ok l =>
          simp [ht, Except.map] at hs
          rw [← hs.1]
          exact List.length_take_le _ _
        | error e => simp [ht, Except.map] at hs
      have hwf' : w.len + bytes.length ≤ (writeAt w.mem w.len bytes).length := by
        rw [writeAt_length _ _ _ (by omega)]
        omega
      by_cases hb : w.buffered = true
      · simp only [hb, if_true]
        exact ⟨hwf', by trivial, hs'⟩
      · simp only [hb, if_false]
        cases he : d.resp d.idx (DevCall.write w.fd ((writeAt w.mem w.len bytes).take bytes.length)) with
        | ok x =>
          simp only [do_write_spec, he, Except.mapError]
          exact ⟨hwf', by trivial, hs'⟩
        | error e =>
          simp only [do_write_spec, he, Except.mapError]
          exact ⟨hwf', by trivial, hs'⟩

lemma wf_write_from_at (w : Writer) (s : Src) (count off : Nat) (d : Dev)
    (hw : w.wf) :
    ((w.write_from_at s count off d).2.1).wf ∧
      ((w.write_from_at s count off d).2.2.2).resp = d.resp ∧
      ((w.write_from_at s count off d).2.2.1).resp = s.resp := by
  have : w.write_from_at s count off d = w.write_from s count d := rfl
  rw [this]
  exact wf_write_from w s count d hw

lemma wf_writeAllFromLoop (fuel : Nat) :
    ∀ count w s d, Writer.wf w →
      ((writeAllFromLoop fuel count w s d).2.1).wf := by
  induction fuel with
  | zero =>
    intro count w s d hw
    unfold writeAllFromLoop
    split <;> exact hw
  | succ n ih =>
    intro count w s d hw
    unfold writeAllFromLoop
    by_cases hc : count = 0
    · simp only [hc, if_true]; exact hw
    · simp only [hc, if_false]
      rcases hr : w.write_from s count d with ⟨r, w', s', d'⟩
      have hwr := wf_write_from w s count d hw
      rw [hr] at hwr
      obtain ⟨hw', -, -⟩ := hwr
      cases r with
      | ok k =>
        cases k with
        | zero => exact hw'
        | succ m => exact ih _ w' s' d' hw'
      | err e =>
        by_cases hi : e.isInterrupted = true
        · simp only [hi, if_true]; exact ih _ w' s' d' hw'
        · simp only [hi, if_false]; exact hw'
      | panic => exact hw'
      | diverge => exact hw'

lemma wf_write_all_from (w : Writer) (s : Src) (count : Nat) (d : Dev)
    (fuel : Nat) (hw : w.wf) :
    ((w.write_all_from s count d fuel).2.1).wf := by
  unfold Writer.write_all_from
  cases hc : w.check_available_space count with
  | panic => exact hw
  | errInvalidData => exact hw
  | ok => exact wf_writeAllFromLoop fuel count w s d hw

lemma wf_split_at (w : Writer) (offset : Nat) (pre suf : Writer)
    (hw : w.wf) (h : w.split_at offset = Except.ok (pre, suf)) :
    pre.wf ∧ suf.wf := by
  unfold Writer.split_at at h
  by_cases hb : w.mem.length < offset
  · simp [hb] at h
  · simp only [hb, if_false, Except.ok.injEq, Prod.mk.injEq] at h
    obtain ⟨hp, hs⟩ := h
    unfold Writer.wf at hw ⊢
    by_cases ho : offset < w.len
    · simp only [ho, if_true] at hp hs
      rw [← hp, ← hs]
      simp
      omega
    · simp only [ho, if_false] at hp hs
      rw [← hp, ← hs]
      simp
      omega

lemma asyncUtil_write_spec (d : Dev) (fd : Nat) (data : List Byte) (off : Nat) :
    AsyncUtil.write d fd data off =
      ((d.resp d.idx (DevCall.awrite fd data off)).mapError IoErr.fromRawOs,
       ⟨d.resp, d.idx + 1, d.trace ++ [DevCall.awrite fd data off]⟩) := rfl

lemma asyncUtil_write2_spec (d : Dev) (fd : Nat) (data data2 : List Byte) (off : Nat) :
    AsyncUtil.write2 d fd data data2 off =
      ((d.resp d.idx (DevCall.awrite2 fd data data2 off)).mapError IoErr.fromRawOs,
       ⟨d.resp, d.idx + 1, d.trace ++ [DevCall.awrite2 fd data data2 off]⟩) := rfl

lemma wf_async_write (w : Writer) (data : List Byte) (d : Dev)
    (hw : w.wf) (hd : GoodDev d.resp) :
    ((w.async_write data d).2.1).wf ∧
      ((w.async_write data d).2.2).resp = d.resp := by
  unfold Writer.async_write
  cases hc : w.check_available_space data.length with
  | panic => exact ⟨hw, by trivial⟩
  | errInvalidData => exact ⟨hw, by trivial⟩
  | ok =>
    rw [check_ok_iff] at hc
    obtain ⟨hc1, hc2⟩ := hc
    unfold Writer.available_bytes at hc2
    unfold Writer.wf at hw
    by_cases hb : w.buffered = true
    · simp only [hb, if_true]
      refine ⟨?_, by trivial⟩
      show w.len + data.length ≤ (writeAt w.mem w.len data).length
      rw [writeAt_length _ _ _ (by omega)]
      omega
    · simp only [hb, if_false]
      cases he : d.resp d.idx (DevCall.awrite w.fd data 0) with
      | ok x =>
        have hx := hd _ _ _ he
        simp only [DevCall.reqLen] at hx
        simp only [asyncUtil_write_spec, he, Except.mapError]
        refine ⟨?_, by trivial⟩
        show w.len + x ≤ w.mem.length
        omega
      | error e =>
        simp only [asyncUtil_write_spec, he, Except.mapError]
        exact ⟨hw, by trivial⟩

lemma wf_async_write2 (w : Writer) (data data2 : List Byte) (d : Dev)
    (hw : w.wf) (hd : GoodDev d.resp) :
    ((w.async_write2 data data2 d).2.1).wf ∧
      ((w.async_write2 data data2 d).2.2).resp = d.resp := by
  unfold Writer.async_write2
  cases hc : w.check_available_space (data.length + data2.length) with
  | panic => exact ⟨hw, by trivial⟩
  | errInvalidData => exact ⟨hw, by trivial⟩
  | ok =>
    rw [check_ok_iff] at hc
    obtain ⟨hc1, hc2⟩ := hc
    unfold Writer.available_bytes at hc2
    unfold Writer.wf at hw
    by_cases hb : w.buffered = true
    · simp only [hb, if_true]
      refine ⟨?_, by trivial⟩
      show w.len + (data.length + data2.length) ≤ (writeAt w.mem w.len (data ++ data2)).length
      rw [writeAt_length]
      · omega
      · simp; omega
    · simp only [hb, if_false]
      cases he : d.resp d.idx (DevCall.awrite2 w.fd data data2 0) with
      | ok x =>
        have hx := hd _ _ _ he
        simp only [DevCall.reqLen] at hx
        simp only [asyncUtil_write2_spec, he, Except.mapError]
        refine ⟨?_, by trivial⟩
        show w.len + x ≤ w.mem.length
        omega
      | error e =>
        simp only [asyncUtil_write2_spec, he, Except.mapError]
        exact ⟨hw, by trivial⟩

lemma wf_async_write3 (w : Writer) (data data2 data3 : List Byte) (d : Dev)
    (hw : w.wf) (hd : GoodDev d.resp) :
    ((w.async_write3 data data2 data3 d).2.1).wf ∧
      ((w.async_write3 data data2 data3 d).2.2).resp = d.resp := by
  unfold Writer.async_write3
  cases hc : w.check_available_space (data.length + data2.length + data3.length) with
  | panic => exact ⟨hw, by trivial⟩
  | errInvalidData => exact ⟨hw, by trivial⟩
  | ok =>
    rw [check_ok_iff] at hc
    obtain ⟨hc1, hc2⟩ := hc
    unfold Writer.available_bytes at hc2
    unfold Writer.wf at hw
    by_cases hb : w.buffered = true
    · simp only [hb, if_true]
      refine ⟨?_, by trivial⟩
      show w.len + (data.length + data2.length + data3.length) ≤
        (writeAt w.mem w.len (data ++ data2 ++ data3)).length
      rw [writeAt_length]
      · omega
      · simp; omega
    · simp only [hb, if_false]
      cases he : d.resp d.idx (DevCall.awrite3 w.fd data data2 data3 0) with
      | ok x =>
        have hx := hd _ _ _ he
        simp only [DevCall.reqLen] at hx
        have : AsyncUtil.write3 d w.fd data data2 data3 0 =
            ((d.resp d.idx (DevCall.awrite3 w.fd data data2 data3 0)).mapError IoErr.fromRawOs,
             ⟨d.resp, d.idx + 1, d.trace ++ [DevCall.awrite3 w.fd data data2 data3 0]⟩) := rfl
        simp only [this, he, Except.mapError]
        refine ⟨?_, by trivial⟩
        show w.len + x ≤ w.mem.length
        omega
      | error e =>
        have : AsyncUtil.write3 d w.fd data data2 data3 0 =
            ((d.resp d.idx (DevCall.awrite3 w.fd data data2 data3 0)).mapError IoErr.fromRawOs,
             ⟨d.resp, d.idx + 1, d.trace ++ [DevCall.awrite3 w.fd data data2 data3 0]⟩) := rfl
        simp only [this, he, Except.mapError]
        exact ⟨hw, by trivial⟩

lemma wf_async_write_all (fuel : Nat) :
    ∀ w data d, Writer.wf w → GoodDev d.resp →
      ((Writer.async_write_all fuel w data d).2.1).wf ∧
        ((Writer.async_write_all fuel w data d).2.2).resp = d.resp := by
  induction fuel with
  | zero =>
    intro w data d hw _
    unfold Writer.async_write_all
    split <;> exact ⟨hw, by trivial⟩
  | succ n ih =>
    intro w data d hw hd
    unfold Writer.async_write_all
    by_cases he : data.isEmpty = true
    · simp only [he, if_true]; exact ⟨hw, by trivial⟩
    · simp only [he, if_false]
      rcases hr : w.async_write data d with ⟨r, w', d'⟩
      have hwr := wf_async_write w data d hw hd
      rw [hr] at hwr
      obtain ⟨hw', hd'⟩ := hwr
      cases r with
      | ok k =>
        cases k with
        | zero => exact ⟨hw', hd'⟩
        | succ m =>
          have := ih w' (data.drop (m + 1)) d' hw' (hd' ▸ hd)
          exact ⟨this.1, this.2.trans hd'⟩
      | err e =>
        by_cases hi : e.isInterrupted = true
        · simp only [hi, if_true]
          have := ih w' data d' hw' (hd' ▸ hd)
          exact ⟨this.1, this.2.trans hd'⟩
        · simp only [hi, if_false]
          exact ⟨hw', hd'⟩
      | panic => exact ⟨hw', hd'⟩
      | diverge => exact ⟨hw', hd'⟩

lemma wf_async_write_from_at (w : Writer) (s : Src) (count off : Nat) (d : Dev)
    (hw : w.wf) :
    ((w.async_write_from_at s count off d).2.1).wf := by
  unfold Writer.async_write_from_at
  cases hc : w.check_available_space count with
  | panic => exact hw
  | errInvalidData => exact hw
  | ok =>
    rw [check_ok_iff] at hc
    obtain ⟨hc1, hc2⟩ := hc
    unfold Writer.available_bytes at hc2
    unfold Writer.wf at hw
    rcases hs : s.read count with ⟨rs, s'⟩
    cases rs with
    | error e => exact hw
    | ok bytes =>
      have hbl : bytes.length ≤ count := by
        unfold Src.read at hs
        cases ht : s.resp s.idx with
        | ok l =>
          simp [ht, Except.map] at hs
          rw [← hs.1]
          exact List.length_take_le _ _
        | error e => simp [ht, Except.map] at hs
      have hwf' : w.len + bytes.length ≤ (writeAt w.mem w.len bytes).length := by
        rw [writeAt_length _ _ _ (by omega)]
        omega
      by_cases hb : w.buffered = true
      · simp only [hb, if_true]
        exact hwf'
      · simp only [hb, if_false]
        cases he : d.resp d.idx (DevCall.awrite w.fd ((writeAt w.mem w.len bytes).take bytes.length) 0) with
        | ok x =>
          simp only [asyncUtil_write_spec, he, Except.mapError]
          exact hwf'
        | error e =>
          simp only [asyncUtil_write_spec, he, Except.mapError]
          exact hwf'

lemma commit_writer_eq (w : Writer) (other : Option Writer) (d : Dev) :
    (w.commit other d).2.1 = w := by
  unfold Writer.commit
  split
  · rfl
  · rfl

lemma async_commit_writer_eq (w : Writer) (other : Option Writer) (d : Dev) :
    (w.async_commit other d).2.1 = w := rfl


lemma inv_iff_wf (w : Writer) : w.inv ↔ w.wf := by
  unfold Writer.inv Writer.wf Writer.bytes_written Writer.available_bytes Writer.capacity
  omega

/-- C2: `split_at(o)` fails with `SplitOutOfBounds` exactly when `o` exceeds
the capacity; on success the prefix has capacity `o` and keeps
`min(bytes_written, o)` written bytes, the suffix has capacity `C - o` and the
remaining written bytes, the written bytes are partitioned across the boundary,
and both halves are buffered. -/
theorem split_at_spec (w : Writer) (offset : Nat) :
    (w.capacity < offset →
      w.split_at offset = Except.error (TransportError.SplitOutOfBounds offset))
    ∧ (offset ≤ w.capacity →
        ∃ pre suf, w.split_at offset = Except.ok (pre, suf)
          ∧ pre.capacity = offset
          ∧ suf.capacity = w.capacity - offset
          ∧ pre.bytes_written = min w.bytes_written offset
          ∧ suf.bytes_written = w.bytes_written - min w.bytes_written offset
          ∧ pre.bytes_written + suf.bytes_written = w.bytes_written
          ∧ pre.buffered = true ∧ suf.buffered = true) := by
  constructor
  · intro h
    unfold Writer.capacity at h
    unfold Writer.split_at
    rw [if_pos h]
  · intro h
    unfold Writer.capacity at h
    unfold Writer.split_at
    rw [if_neg (by omega)]
    by_cases ho : offset < w.len
    · simp only [ho, if_true]
      refine ⟨_, _, rfl, ?_, ?_, ?_, ?_, ?_, rfl, rfl⟩
      · show (w.mem.take offset).length = offset
        simp; omega
      · show (w.mem.drop offset).length = w.capacity - offset
        simp [Writer.capacity]
      · show offset = min w.bytes_written offset
        unfold Writer.bytes_written; omega
      · show w.len - offset = w.bytes_written - min w.bytes_written offset
        unfold Writer.bytes_written; omega
      · show offset + (w.len - offset) = w.bytes_written
        unfold Writer.bytes_written; omega
    · simp only [ho, if_false]
      refine ⟨_, _, rfl, ?_, ?_, ?_, ?_, ?_, rfl, rfl⟩
      · show (w.mem.take offset).length = offset
        simp; omega
      · show (w.mem.drop offset).length = w.capacity - offset
        simp [Writer.capacity]
      · show w.len = min w.bytes_written offset
        unfold Writer.bytes_written; omega
      · show 0 = w.bytes_written - min w.bytes_written offset
        unfold Writer.bytes_written; omega
      · show w.len + 0 = w.bytes_written
        unfold Writer.bytes_written; omega

/-- C2 witness: a concrete out-of-bounds split fails with `SplitOutOfBounds`. -/
theorem split_at_spec_witness :
    (Writer.mk 0 false ([1, 2, 3, 4] : List Byte) 3).split_at 5 =
      Except.error (TransportError.SplitOutOfBounds 5) :=
  (split_at_spec ⟨0, false, [1, 2, 3, 4], 3⟩ 5).1 (by decide)


/-- C1: `commit(None)` on a never-buffered writer is a no-op returning 0 even
if bytes were written through; on a buffered writer with accumulated bytes and
no (or an empty) sibling, exactly one single-buffer device write of exactly
`bytes_written` bytes is issued; with a sibling where both hold bytes, exactly
one vectored device write of `self`'s bytes followed by the sibling's bytes is
issued; when both buffers are empty no device write is issued and 0 is
returned. -/
theorem commit_cases (w v : Writer) (other : Option Writer) (d : Dev)
    (hw : w.wf) (hv : v.wf) :
    (w.buffered = false → w.commit other d = (Except.ok 0, w, d))
    ∧ (w.buffered = true → 0 < w.len →
        (other = none ∨ (other = some v ∧ v.len = 0)) →
        (w.commit other d).2.2.trace = d.trace ++ [DevCall.write w.fd w.bufSlice]
          ∧ (w.commit other d).2.2.idx = d.idx + 1
          ∧ w.bufSlice.length = w.bytes_written
          ∧ (w.commit other d).1 =
              (d.resp d.idx (DevCall.write w.fd w.bufSlice)).mapError IoErr.fromRawOs)
    ∧ (w.buffered = true → 0 < w.len → 0 < v.len →
        (w.commit (some v) d).2.2.trace =
            d.trace ++ [DevCall.writev w.fd [w.bufSlice, v.bufSlice]]
          ∧ (w.commit (some v) d).2.2.idx = d.idx + 1
          ∧ (DevCall.writev w.fd [w.bufSlice, v.bufSlice]).payload.flatten =
              w.bufSlice ++ v.bufSlice)
    ∧ (w.buffered = true → w.len = 0 →
        (other = none ∨ (other = some v ∧ v.len = 0)) →
        w.commit other d = (Except.ok 0, w, d)) := by
  unfold Writer.wf at hw hv
  refine ⟨?_, ?_, ?_, ?_⟩
  · intro hb
    simp [Writer.commit, hb]
  · intro hb h1 h2
    have hbf : ¬(w.buffered = false) := by simp [hb]
    have hol : ((other.map Writer.bufSlice).getD []).length = 0 := by
      rcases h2 with h2 | ⟨h2, h2l⟩
      · rw [h2]; rfl
      · rw [h2]
        show v.bufSlice.length = 0
        simp [Writer.bufSlice, h2l]
    have hsl : w.bufSlice.length = w.len := by
      simp [Writer.bufSlice]
      omega
    simp only [Writer.commit, if_neg hbf, if_neg (by omega : ¬(w.len = 0)),
      if_pos hol, Dev.call]
    exact ⟨by trivial, by trivial, hsl, by trivial⟩
  · intro hb h1 h1v
    have hbf : ¬(w.buffered = false) := by simp [hb]
    have hvl : v.bufSlice.length = v.len := by
      simp [Writer.bufSlice]
      omega
    have hol : ¬(((some v).map Writer.bufSlice).getD []).length = 0 := by
      show ¬v.bufSlice.length = 0
      rw [hvl]
      omega
    simp only [Writer.commit, if_neg hbf, if_neg (by omega : ¬(w.len = 0)),
      if_neg hol, Dev.call]
    refine ⟨by trivial, by trivial, ?_⟩
    simp [DevCall.payload]
  · intro hb h1 h2
    have hbf : ¬(w.buffered = false) := by simp [hb]
    have hol : ((other.map Writer.bufSlice).getD []).length = 0 := by
      rcases h2 with h2 | ⟨h2, h2l⟩
      · rw [h2]; rfl
      · rw [h2]
        show v.bufSlice.length = 0
        simp [Writer.bufSlice, h2l]
    simp only [Writer.commit, if_neg hbf, if_pos h1, if_pos hol]
    simp [Except.mapError]

/-- C1 witness: a buffered writer with 2 accumulated bytes and a sibling with
1 byte commits through exactly one vectored write of both buffers in order. -/
theorem commit_cases_witness :
    ((Writer.mk 0 true ([1, 2, 3] : List Byte) 2).commit
        (some (Writer.mk 0 true ([4, 5] : List Byte) 1))
        ⟨fun _ c => Except.ok c.reqLen, 0, []⟩).2.2.trace =
      [DevCall.writev 0 [[1, 2], [4]]] :=
  ((commit_cases ⟨0, true, [1, 2, 3], 2⟩ ⟨0, true, [4, 5], 1⟩
      (some ⟨0, true, [4, 5], 1⟩) ⟨fun _ c => Except.ok c.reqLen, 0, []⟩
      (by decide) (by decide)).2.2.1 rfl (by decide) (by decide)).1

/-- C10: `commit` never mutates the writer (its bytes, cursor and flag are
identical before and after, on success and on error), and a repeated `commit`
with the same arguments issues exactly the same device calls again. -/
theorem commit_frame (w : Writer) (other : Option Writer) (d : Dev) :
    (w.commit other d).2.1 = w
    ∧ ∃ t, (w.commit other d).2.2.trace = d.trace ++ t
        ∧ (w.commit other ((w.commit other d).2.2)).2.2.trace = d.trace ++ t ++ t := by
  refine ⟨commit_writer_eq w other d, ?_⟩
  by_cases hb : w.buffered = false
  · refine ⟨[], ?_, ?_⟩ <;> simp [Writer.commit, hb]
  · by_cases h1 : w.len = 0
    · by_cases h2 : ((other.map Writer.bufSlice).getD []).length = 0
      · refine ⟨[], ?_, ?_⟩ <;>
          simp [Writer.commit, hb, h1, h2, Dev.call]
      · refine ⟨[DevCall.write w.fd ((other.map Writer.bufSlice).getD [])], ?_, ?_⟩ <;>
          simp [Writer.commit, hb, h1, h2, Dev.call]
    · by_cases h2 : ((other.map Writer.bufSlice).getD []).length = 0
      · refine ⟨[DevCall.write w.fd w.bufSlice], ?_, ?_⟩ <;>
          simp [Writer.commit, hb, h1, h2, Dev.call]
      · refine ⟨[DevCall.writev w.fd [w.bufSlice, (other.map Writer.bufSlice).getD []]], ?_, ?_⟩ <;>
          simp [Writer.commit, hb, h1, h2, Dev.call]


/-- C3: after construction and after every writer operation (sync and async),
`bytes_written + available_bytes = capacity` holds and `bytes_written` never
exceeds `capacity` (given well-behaved device responses). -/
theorem writer_invariant
    (w : Writer) (d : Dev) (s : Src) (other : Option Writer)
    (data data2 data3 : List Byte) (bufs : List (List Byte))
    (count off fuel fd : Nat) (buf0 : List Byte)
    (hw : w.inv) (hd : GoodDev d.resp) :
    (Writer.new fd buf0).inv
    ∧ (∀ pre suf, w.split_at off = Except.ok (pre, suf) → pre.inv ∧ suf.inv)
    ∧ ((w.write data d).2.1).inv
    ∧ ((w.write_vectored bufs d).2.1).inv
    ∧ ((w.write_obj data d fuel).2.1).inv
    ∧ ((w.write_from s count d).2.1).inv
    ∧ ((w.write_from_at s count off d).2.1).inv
    ∧ ((w.write_all_from s count d fuel).2.1).inv
    ∧ ((w.commit other d).2.1).inv
    ∧ ((w.async_write data d).2.1).inv
    ∧ ((w.async_write2 data data2 d).2.1).inv
    ∧ ((w.async_write3 data data2 data3 d).2.1).inv
    ∧ ((Writer.async_write_all fuel w data d).2.1).inv
    ∧ ((w.async_write_from_at s count off d).2.1).inv
    ∧ ((w.async_commit other d).2.1).inv := by
  rw [inv_iff_wf] at hw
  simp only [inv_iff_wf]
  refine ⟨?_, ?_, ?_, ?_, ?_, ?_, ?_, ?_, ?_, ?_, ?_, ?_, ?_, ?_, ?_⟩
  · exact Nat.zero_le _
  · intro pre suf h
    exact wf_split_at w off pre suf hw h
  · exact (wf_write w data d hw hd).1
  · exact (wf_write_vectored w bufs d hw hd).1
  · exact (wf_write_all fuel w data d hw hd).1
  · exact (wf_write_from w s count d hw).1
  · exact (wf_write_from_at w s count off d hw).1
  · exact wf_write_all_from w s count d fuel hw
  · rw [commit_writer_eq]; exact hw
  · exact (wf_async_write w data d hw hd).1
  · exact (wf_async_write2 w data data2 d hw hd).1
  · exact (wf_async_write3 w data data2 data3 d hw hd).1
  · exact (wf_async_write_all fuel w data d hw hd).1
  · exact wf_async_write_from_at w s count off d hw
  · rw [async_commit_writer_eq]; exact hw

/-- C3 witness: the invariant holds after a concrete buffered write. -/
theorem writer_invariant_witness :
    (((Writer.mk 0 true ([0, 0, 0] : List Byte) 1).write ([7] : List Byte)
        ⟨fun _ _ => Except.error 0, 0, []⟩).2.1).inv :=
  (writer_invariant ⟨0, true, [0, 0, 0], 1⟩ ⟨fun _ _ => Except.error 0, 0, []⟩
      ⟨fun _ => Except.ok [], 0⟩ none [7] [] [] [] 0 0 1 0 []
      (by decide) (fun _ _ _ h => Except.noConfusion h)).2.2.1


lemma check_panic (w : Writer) (sz : Nat) (hb : w.buffered = false)
    (hlen : 0 < w.len) : w.check_available_space sz = Check.panic := by
  unfold Writer.check_available_space
  rw [if_neg]
  simp [hb]
  omega

lemma write_panic (w : Writer) (data : List Byte) (d : Dev)
    (hb : w.buffered = false) (hlen : 0 < w.len) :
    w.write data d = (Outcome.panic, w, d) := by
  unfold Writer.write
  rw [check_panic w _ hb hlen]

lemma async_write_panic (w : Writer) (data : List Byte) (d : Dev)
    (hb : w.buffered = false) (hlen : 0 < w.len) :
    w.async_write data d = (Outcome.panic, w, d) := by
  unfold Writer.async_write
  rw [check_panic w _ hb hlen]

/-- C6: on an unbuffered writer that has already written bytes, every
write-family operation (sync and async) panics through the assertion in
`check_available_space` instead of returning an error — write-through mode
supports at most one successful write per writer. -/
theorem unbuffered_rewrite_panics
    (w : Writer) (hb : w.buffered = false) (hlen : 0 < w.len)
    (data data2 data3 : List Byte) (hdata : data ≠ [])
    (bufs : List (List Byte)) (s : Src) (count off : Nat)
    (fuel : Nat) (hfuel : 0 < fuel) (d : Dev) :
    (w.write data d).1 = Outcome.panic
    ∧ (w.write_vectored bufs d).1 = Outcome.panic
    ∧ (w.write_obj data d fuel).1 = Outcome.panic
    ∧ (w.write_from s count d).1 = Outcome.panic
    ∧ (w.write_from_at s count off d).1 = Outcome.panic
    ∧ (w.write_all_from s count d fuel).1 = Outcome.panic
    ∧ (w.async_write data d).1 = Outcome.panic
    ∧ (w.async_write2 data data2 d).1 = Outcome.panic
    ∧ (w.async_write3 data data2 data3 d).1 = Outcome.panic
    ∧ (Writer.async_write_all fuel w data d).1 = Outcome.panic
    ∧ (w.async_write_from_at s count off d).1 = Outcome.panic := by
  have hde : ¬(data.isEmpty = true) := by
    cases data
    · exact absurd rfl hdata
    · simp
  obtain ⟨f, rfl⟩ : ∃ f, fuel = f + 1 := ⟨fuel - 1, by omega⟩
  refine ⟨?_, ?_, ?_, ?_, ?_, ?_, ?_, ?_, ?_, ?_, ?_⟩
  · rw [write_panic w data d hb hlen]
  · unfold Writer.write_vectored
    rw [check_panic w _ hb hlen]
  · unfold Writer.write_obj Writer.write_all
    rw [if_neg hde, write_panic w data d hb hlen]
  · unfold Writer.write_from
    rw [check_panic w _ hb hlen]
  · unfold Writer.write_from_at
    rw [check_panic w _ hb hlen]
  · unfold Writer.write_all_from
    rw [check_panic w _ hb hlen]
  · rw [async_write_panic w data d hb hlen]
  · unfold Writer.async_write2
    rw [check_panic w _ hb hlen]
  · unfold Writer.async_write3
    rw [check_panic w _ hb hlen]
  · unfold Writer.async_write_all
    rw [if_neg hde, async_write_panic w data d hb hlen]
  · unfold Writer.async_write_from_at
    rw [check_panic w _ hb hlen]

/-- C6 witness: a concrete unbuffered writer with one byte written panics on a
second write. -/
theorem unbuffered_rewrite_panics_witness :
    ((Writer.mk 0 false ([0, 0] : List Byte) 1).write ([1] : List Byte)
        ⟨fun _ _ => Except.ok 0, 0, []⟩).1 = Outcome.panic :=
  (unbuffered_rewrite_panics ⟨0, false, [0, 0], 1⟩ rfl (by decide)
      [1] [] [] (by decide) [] ⟨fun _ => Except.ok [], 0⟩ 0 0 1 (by decide)
      ⟨fun _ _ => Except.ok 0, 0, []⟩).1

lemma check_err (w : Writer) (sz : Nat) (hok : w.buffered = true ∨ w.len = 0)
    (hsz : w.available_bytes < sz) :
    w.check_available_space sz = Check.errInvalidData := by
  unfold Writer.check_available_space
  rw [if_pos hok, if_pos hsz]

/-- C5 (amended): on a writer that is buffered or has written no bytes, any
`write` / `write_vectored` / `write_obj` / `write_from` / `write_from_at` /
`write_all_from` call whose requested length exceeds `available_bytes` fails
with `InvalidData` before any device call or source read, leaving the writer,
device and source untouched.  (An unbuffered writer with bytes already written
panics instead — see the `assert!` in `check_available_space`.) -/
theorem overflow_invaliddata
    (w : Writer) (hok : w.buffered = true ∨ w.len = 0)
    (d : Dev) (s : Src) (data : List Byte) (bufs : List (List Byte))
    (count off fuel : Nat) (hfuel : 0 < fuel)
    (hdata : w.available_bytes < data.length)
    (hbufs : w.available_bytes < bufs.foldl (fun acc x => acc + x.length) 0)
    (hcount : w.available_bytes < count) :
    w.write data d = (Outcome.err IoErr.invalidData, w, d)
    ∧ w.write_vectored bufs d = (Outcome.err IoErr.invalidData, w, d)
    ∧ w.write_obj data d fuel = (Outcome.err IoErr.invalidData, w, d)
    ∧ w.write_from s count d = (Outcome.err IoErr.invalidData, w, s, d)
    ∧ w.write_from_at s count off d = (Outcome.err IoErr.invalidData, w, s, d)
    ∧ w.write_all_from s count d fuel = (Outcome.err IoErr.invalidData, w, s, d) := by
  have hde : ¬(data.isEmpty = true) := by
    cases data
    · simp [Writer.available_bytes] at hdata
    · simp
  obtain ⟨f, rfl⟩ : ∃ f, fuel = f + 1 := ⟨fuel - 1, by omega⟩
  have hwr : w.write data d = (Outcome.err IoErr.invalidData, w, d) := by
    unfold Writer.write
    rw [check_err w _ hok hdata]
  refine ⟨hwr, ?_, ?_, ?_, ?_, ?_⟩
  · unfold Writer.write_vectored
    rw [check_err w _ hok hbufs]
  · unfold Writer.write_obj Writer.write_all
    rw [if_neg hde, hwr]
    simp [IoErr.isInterrupted]
  · unfold Writer.write_from
    rw [check_err w _ hok hcount]
  · unfold Writer.write_from_at
    rw [check_err w _ hok hcount]
  · unfold Writer.write_all_from
    rw [check_err w _ hok hcount]

/-- C5 witness: a buffered writer with one free byte rejects a two-byte write
with `InvalidData`, unchanged. -/
theorem overflow_invaliddata_witness :
    (Writer.mk 0 true ([9, 0] : List Byte) 1).write ([1, 2] : List Byte)
        ⟨fun _ _ => Except.ok 0, 0, []⟩ =
      (Outcome.err IoErr.invalidData, ⟨0, true, [9, 0], 1⟩,
        ⟨fun _ _ => Except.ok 0, 0, []⟩) :=
  (overflow_invaliddata ⟨0, true, [9, 0], 1⟩ (Or.inl rfl)
      ⟨fun _ _ => Except.ok 0, 0, []⟩ ⟨fun _ => Except.ok [], 0⟩ [1, 2] [[1], [2]]
      2 0 1 (by decide) (by decide) (by decide) (by decide)).1

/-- C5 counterexample: an unbuffered writer that has written one byte (a state
reached through `Writer::new` and one successful write-through) panics — it
does not return `InvalidData` — when a write exceeds `available_bytes`. -/
theorem overflow_unbuffered_panics_not_invaliddata :
    ((((Writer.new 0 [0, 0]).write ([9] : List Byte)
          ⟨fun _ _ => Except.ok 1, 0, []⟩).2.1).available_bytes < 2)
    ∧ ((((Writer.new 0 [0, 0]).write ([9] : List Byte)
          ⟨fun _ _ => Except.ok 1, 0, []⟩).2.1).write ([1, 2] : List Byte)
          ⟨fun _ _ => Except.ok 1, 0, []⟩).1 = Outcome.panic
    ∧ ((((Writer.new 0 [0, 0]).write ([9] : List Byte)
          ⟨fun _ _ => Except.ok 1, 0, []⟩).2.1).write ([1, 2] : List Byte)
          ⟨fun _ _ => Except.ok 1, 0, []⟩).1 ≠ Outcome.err IoErr.invalidData := by
  refine ⟨by decide, by decide, by decide⟩


/-- C7: with `n` bytes remaining, a plain `read` into a larger destination
succeeds, returns exactly the `n` remaining bytes and moves the cursor to the
end; `read_exact_to` asking for more than `n` bytes fails with `UnexpectedEof`
and does not produce an advanced reader. -/
theorem reader_short_read_eof
    (r : Reader) (dstLen count : Nat)
    (hr : r.bytes_consumed ≤ r.data.length)
    (h1 : r.available_bytes < dstLen) (h2 : r.available_bytes < count) :
    ((r.read dstLen).1.length = r.available_bytes
      ∧ (r.read dstLen).2.bytes_read = r.data.length
      ∧ (r.read dstLen).2.available_bytes = 0)
    ∧ r.read_exact_to count = Except.error IoErr.unexpectedEof := by
  have hbs : ((r.data.drop r.bytes_consumed).take dstLen).length =
      r.data.length - r.bytes_consumed := by
    simp
    unfold Reader.available_bytes at h1
    omega
  refine ⟨⟨?_, ?_, ?_⟩, ?_⟩
  · show ((r.data.drop r.bytes_consumed).take dstLen).length = _
    rw [hbs]
    rfl
  · show r.bytes_consumed + ((r.data.drop r.bytes_consumed).take dstLen).length = _
    rw [hbs]
    unfold Reader.available_bytes at h1
    omega
  · show r.data.length - (r.bytes_consumed + ((r.data.drop r.bytes_consumed).take dstLen).length) = 0
    rw [hbs]
    omega
  · unfold Reader.read_exact_to
    rw [if_pos h2]

/-- C7 witness: a reader with 2 of 3 bytes remaining satisfies short-read and
eof behaviour at concrete requests of 5 and 9 bytes. -/
theorem reader_short_read_eof_witness :
    ((Reader.mk ([1, 2, 3] : List Byte) 1).read 5).2.bytes_read = 3
      ∧ (Reader.mk ([1, 2, 3] : List Byte) 1).read_exact_to 9 =
          Except.error IoErr.unexpectedEof :=
  ⟨((reader_short_read_eof ⟨[1, 2, 3], 1⟩ 5 9 (by decide) (by decide)
      (by decide)).1).2.1,
   (reader_short_read_eof ⟨[1, 2, 3], 1⟩ 5 9 (by decide) (by decide)
      (by decide)).2⟩

/-- C9: for the single-region readers built by `Reader::new`, the multi-buffer
panic branch of `async_read_to_at` is unreachable: the call returns `Ok(0)`
when nothing remains, otherwise it performs exactly one single-buffer driver
transfer, returns the transferred count and advances the cursor by it. -/
theorem async_read_single_region
    (r : Reader) (dst count off : Nat) (d : Dev) :
    ((r.async_read_to_at dst count off d).1 ≠ Outcome.panic)
    ∧ (min count r.available_bytes = 0 →
        r.async_read_to_at dst count off d = (Outcome.ok (0, r), d))
    ∧ (0 < min count r.available_bytes →
        ((r.async_read_to_at dst count off d).2.trace =
            d.trace ++ [DevCall.awrite dst ((r.data.drop r.bytes_consumed).take count) off]
          ∧ (r.async_read_to_at dst count off d).2.idx = d.idx + 1
          ∧ ∀ n, d.resp d.idx
                (DevCall.awrite dst ((r.data.drop r.bytes_consumed).take count) off) =
                  Except.ok n →
              (r.async_read_to_at dst count off d).1 = Outcome.ok (n, r.mark_used n))) := by
  have hlen : ((r.data.drop r.bytes_consumed).take count).length =
      min count r.available_bytes := by
    simp [Reader.available_bytes]
  by_cases hz : min count r.available_bytes = 0
  · have he : (r.data.drop r.bytes_consumed).take count = [] := by
      rw [← List.length_eq_zero]
      rw [hlen]
      exact hz
    have : r.async_read_to_at dst count off d = (Outcome.ok (0, r), d) := by
      unfold Reader.async_read_to_at Reader.allocate_io_slice
      rw [he]
      rfl
    refine ⟨by rw [this]; simp, fun _ => this, fun h => absurd hz (by omega)⟩
  · have he : ¬((r.data.drop r.bytes_consumed).take count).isEmpty = true := by
      rw [List.isEmpty_iff, ← List.length_eq_zero, hlen]
      omega
    have halloc : r.allocate_io_slice count =
        [(r.data.drop r.bytes_consumed).take count] := by
      unfold Reader.allocate_io_slice
      rw [if_neg he]
    refine ⟨?_, fun h => absurd h hz, fun _ => ⟨?_, ?_, ?_⟩⟩
    · unfold Reader.async_read_to_at
      rw [halloc]
      simp only [asyncUtil_write_spec]
      cases hresp : d.resp d.idx
          (DevCall.awrite dst ((r.data.drop r.bytes_consumed).take count) off) <;>
        simp [Except.mapError, hresp]
    · unfold Reader.async_read_to_at
      rw [halloc]
      simp only [asyncUtil_write_spec]
      cases hresp : d.resp d.idx
          (DevCall.awrite dst ((r.data.drop r.bytes_consumed).take count) off) <;>
        simp [Except.mapError, hresp]
    · unfold Reader.async_read_to_at
      rw [halloc]
      simp only [asyncUtil_write_spec]
      cases hresp : d.resp d.idx
          (DevCall.awrite dst ((r.data.drop r.bytes_consumed).take count) off) <;>
        simp [Except.mapError, hresp]
    · intro n hresp
      unfold Reader.async_read_to_at
      rw [halloc]
      simp only [asyncUtil_write_spec]
      simp [Except.mapError, hresp]

/-- C9 witness: a fresh 3-byte reader transfers one 2-byte slice through one
driver call, returning 2 and advancing the cursor to 2. -/
theorem async_read_single_region_witness :
    ((Reader.mk ([1, 2, 3] : List Byte) 0).async_read_to_at 7 2 5
        ⟨fun _ _ => Except.ok 2, 0, []⟩).1 = Outcome.ok (2, ⟨[1, 2, 3], 2⟩) :=
  (((async_read_single_region ⟨[1, 2, 3], 0⟩ 7 2 5
      ⟨fun _ _ => Except.ok 2, 0, []⟩).2.2 (by decide)).2.2 2 rfl)


/-- C4 (amended): the async variants reproduce the synchronous bounds checks
and buffered/unbuffered dispatch — `async_write` agrees with `write` on the
result, the writer state and the submitted device payloads for every writer,
and `async_commit` selects the same no-op / single-write / vectored-write case
with the same byte count as `commit` on every buffered writer (and on a
never-buffered writer with no accumulated bytes).  On a never-buffered writer
with accumulated bytes the two differ: `commit` is a no-op returning 0 while
`async_commit` issues a device write (it lacks the `buffered` check). -/
theorem async_sync_agree
    (w : Writer) (other : Option Writer) (d : Dev) (data : List Byte)
    (hdet : ∀ i c c', DevCall.payload c = DevCall.payload c' →
      d.resp i c = d.resp i c') :
    (w.buffered = true →
      (w.commit other d).1 = (w.async_commit other d).1
        ∧ (w.commit other d).2.1 = (w.async_commit other d).2.1
        ∧ ((w.commit other d).2.2.trace).map DevCall.payload =
            ((w.async_commit other d).2.2.trace).map DevCall.payload
        ∧ (w.commit other d).2.2.idx = (w.async_commit other d).2.2.idx)
    ∧ (w.buffered = false → w.len = 0 →
      (w.commit none d).1 = (w.async_commit none d).1
        ∧ (w.commit none d).2.2.trace = (w.async_commit none d).2.2.trace)
    ∧ ((w.write data d).1 = (w.async_write data d).1
        ∧ (w.write data d).2.1 = (w.async_write data d).2.1
        ∧ ((w.write data d).2.2.trace).map DevCall.payload =
            ((w.async_write data d).2.2.trace).map DevCall.payload) := by
  refine ⟨?_, ?_, ?_⟩
  · intro hb
    have hbf : ¬(w.buffered = false) := by simp [hb]
    by_cases h1 : w.len = 0 <;>
      by_cases h2 : ((other.map Writer.bufSlice).getD []).length = 0
    · simp [Writer.commit, Writer.async_commit, hbf, h1, h2, Except.mapError]
    · have hre := hdet d.idx
        (DevCall.write w.fd ((other.map Writer.bufSlice).getD []))
        (DevCall.awrite w.fd ((other.map Writer.bufSlice).getD []) 0)
        (by simp [DevCall.payload])
      simp only [Writer.commit, Writer.async_commit, if_neg hbf, if_pos h1,
        if_neg h2, Dev.call, asyncUtil_write_spec]
      rw [hre]
      simp [DevCall.payload]
    · have hre := hdet d.idx
        (DevCall.write w.fd w.bufSlice)
        (DevCall.awrite w.fd w.bufSlice 0)
        (by simp [DevCall.payload])
      simp only [Writer.commit, Writer.async_commit, if_neg hbf, if_neg h1,
        if_pos h2, Dev.call, asyncUtil_write_spec]
      rw [hre]
      simp [DevCall.payload]
    · have hre := hdet d.idx
        (DevCall.writev w.fd [w.bufSlice, (other.map Writer.bufSlice).getD []])
        (DevCall.awrite2 w.fd w.bufSlice ((other.map Writer.bufSlice).getD []) 0)
        (by simp [DevCall.payload])
      simp only [Writer.commit, Writer.async_commit, if_neg hbf, if_neg h1,
        if_neg h2, Dev.call, asyncUtil_write2_spec]
      rw [hre]
      simp [DevCall.payload]
  · intro hb h1
    simp [Writer.commit, Writer.async_commit, hb, h1, Writer.bufSlice,
      Except.mapError]
  · unfold Writer.write Writer.async_write
    cases hc : w.check_available_space data.length
    · exact ⟨rfl, rfl, rfl⟩
    · exact ⟨rfl, rfl, rfl⟩
    · by_cases hb : w.buffered = true
      · simp [hb]
      · have hre := hdet d.idx
          (DevCall.write w.fd data) (DevCall.awrite w.fd data 0)
          (by simp [DevCall.payload])
        simp only [hb, if_false, do_write_spec, asyncUtil_write_spec]
        rw [hre]
        cases hresp : d.resp d.idx (DevCall.awrite w.fd data 0) <;>
          simp [Except.mapError, DevCall.payload]

/-- C4 witness: on a concrete buffered writer the synchronous and asynchronous
commits agree on the returned byte count. -/
theorem async_sync_agree_witness :
    ((Writer.mk 0 true ([1, 2, 3] : List Byte) 2).commit none
        ⟨fun _ _ => Except.ok 2, 0, []⟩).1 =
      ((Writer.mk 0 true ([1, 2, 3] : List Byte) 2).async_commit none
        ⟨fun _ _ => Except.ok 2, 0, []⟩).1 :=
  ((async_sync_agree ⟨0, true, [1, 2, 3], 2⟩ none ⟨fun _ _ => Except.ok 2, 0, []⟩
      [9] (fun _ _ _ _ => rfl)).1 rfl).1

/-- C4 counterexample: on a never-buffered writer holding one written-through
byte (reachable via `Writer::new` plus one successful write), `commit` returns
0 and issues no device call, while `async_commit` issues one device write and
returns 1 — the async variant does not reproduce `commit`'s no-op case. -/
theorem async_commit_differs_from_commit :
    (((Writer.new 0 [7]).write ([9] : List Byte)
        ⟨fun _ c => Except.ok c.reqLen, 0, []⟩).2.1.commit none
        ⟨fun _ c => Except.ok c.reqLen, 0, []⟩).1 = Except.ok 0
    ∧ (((Writer.new 0 [7]).write ([9] : List Byte)
        ⟨fun _ c => Except.ok c.reqLen, 0, []⟩).2.1.commit none
        ⟨fun _ c => Except.ok c.reqLen, 0, []⟩).2.2.trace.length = 0
    ∧ (((Writer.new 0 [7]).write ([9] : List Byte)
        ⟨fun _ c => Except.ok c.reqLen, 0, []⟩).2.1.async_commit none
        ⟨fun _ c => Except.ok c.reqLen, 0, []⟩).1 = Except.ok 1
    ∧ (((Writer.new 0 [7]).write ([9] : List Byte)
        ⟨fun _ c => Except.ok c.reqLen, 0, []⟩).2.1.async_commit none
        ⟨fun _ c => Except.ok c.reqLen, 0, []⟩).2.2.trace.length = 1 := by
  refine ⟨by decide, by decide, by decide, by decide⟩


lemma check_ok_of (w : Writer) (sz : Nat) (hok : w.buffered = true ∨ w.len = 0)
    (hsz : sz ≤ w.available_bytes) : w.check_available_space sz = Check.ok :=
  (check_ok_iff w sz).mpr ⟨hok, hsz⟩

lemma write_from_buffered_err (w : Writer) (s : Src) (count : Nat) (d : Dev)
    (hb : w.buffered = true) (hcount : count ≤ w.available_bytes)
    (e : IoErr) (he : s.resp s.idx = Except.error e) :
    w.write_from s count d = (Outcome.err e, w, ⟨s.resp, s.idx + 1⟩, d) := by
  unfold Writer.write_from
  rw [check_ok_of w count (Or.inl hb) hcount]
  unfold Src.read
  rw [he]
  rfl

lemma write_from_buffered_ok (w : Writer) (s : Src) (count : Nat) (d : Dev)
    (hb : w.buffered = true) (hcount : count ≤ w.available_bytes)
    (bytes : List Byte) (hr : s.resp s.idx = Except.ok bytes) :
    w.write_from s count d =
      (Outcome.ok (bytes.take count).length,
       { w with mem := writeAt w.mem w.len (bytes.take count),
                len := w.len + (bytes.take count).length },
       ⟨s.resp, s.idx + 1⟩, d) := by
  unfold Writer.write_from
  rw [check_ok_of w count (Or.inl hb) hcount]
  unfold Src.read
  rw [hr]
  simp only [Except.map]
  rw [if_pos hb]

lemma loop_step_err (fuel count : Nat) (w : Writer) (s : Src) (d : Dev)
    (hc : ¬count = 0) (e : IoErr) (w1 : Writer) (s1 : Src) (d1 : Dev)
    (h : w.write_from s count d = (Outcome.err e, w1, s1, d1)) :
    writeAllFromLoop (fuel + 1) count w s d =
      if e.isInterrupted = true then writeAllFromLoop fuel count w1 s1 d1
      else (Outcome.err e, w1, s1, d1) := by
  conv_lhs => rw [writeAllFromLoop]
  rw [if_neg hc, h]

lemma loop_step_ok_zero (fuel count : Nat) (w : Writer) (s : Src) (d : Dev)
    (hc : ¬count = 0) (w1 : Writer) (s1 : Src) (d1 : Dev)
    (h : w.write_from s count d = (Outcome.ok 0, w1, s1, d1)) :
    writeAllFromLoop (fuel + 1) count w s d =
      (Outcome.err IoErr.writeZero, w1, s1, d1) := by
  conv_lhs => rw [writeAllFromLoop]
  rw [if_neg hc, h]

lemma loop_step_ok_succ (fuel count m : Nat) (w : Writer) (s : Src) (d : Dev)
    (hc : ¬count = 0) (w1 : Writer) (s1 : Src) (d1 : Dev)
    (h : w.write_from s count d = (Outcome.ok (m + 1), w1, s1, d1)) :
    writeAllFromLoop (fuel + 1) count w s d =
      writeAllFromLoop fuel (count - (m + 1)) w1 s1 d1 := by
  conv_lhs => rw [writeAllFromLoop]
  rw [if_neg hc, h]

lemma writeAllFromLoop_spec (fuel : Nat) :
    ∀ count w s d, Writer.buffered w = true → Writer.wf w →
      count ≤ Writer.available_bytes w →
      ((writeAllFromLoop fuel count w s d).1 ≠ Outcome.panic)
      ∧ (∀ w' s' d',
          writeAllFromLoop fuel count w s d = (Outcome.ok (), w', s', d') →
            w'.len = w.len + count ∧ d' = d)
      ∧ (∀ e w' s' d',
          writeAllFromLoop fuel count w s d = (Outcome.err e, w', s', d') →
            IoErr.isInterrupted e = false ∧
              (e = IoErr.writeZero ∨ ∃ i, s.resp i = Except.error e)) := by
  induction fuel with
  | zero =>
    intro count w s d hb hw hcount
    unfold writeAllFromLoop
    by_cases hc : count = 0
    · rw [if_pos hc]
      refine ⟨by simp, ?_, ?_⟩
      · intro w' s' d' h
        simp only [Prod.mk.injEq] at h
        obtain ⟨-, hww, -, hdd⟩ := h
        rw [← hww, ← hdd]
        exact ⟨by omega, rfl⟩
      · intro e w' s' d' h
        simp only [Prod.mk.injEq] at h
        exact absurd h.1 (by simp)
    · rw [if_neg hc]
      refine ⟨by simp, ?_, ?_⟩
      · intro w' s' d' h
        simp only [Prod.mk.injEq] at h
        exact absurd h.1 (by simp)
      · intro e w' s' d' h
        simp only [Prod.mk.injEq] at h
        exact absurd h.1 (by simp)
  | succ n ih =>
    intro count w s d hb hw hcount
    by_cases hc : count = 0
    · unfold writeAllFromLoop
      rw [if_pos hc]
      refine ⟨by simp, ?_, ?_⟩
      · intro w' s' d' h
        simp only [Prod.mk.injEq] at h
        obtain ⟨-, hww, -, hdd⟩ := h
        rw [← hww, ← hdd]
        exact ⟨by omega, rfl⟩
      · intro e w' s' d' h
        simp only [Prod.mk.injEq] at h
        exact absurd h.1 (by simp)
    · cases hresp : s.resp s.idx with
      | error e =>
        rw [loop_step_err n count w s d hc e w ⟨s.resp, s.idx + 1⟩ d
          (write_from_buffered_err w s count d hb hcount e hresp)]
        by_cases hi : IoErr.isInterrupted e = true
        · rw [if_pos hi]
          have := ih count w ⟨s.resp, s.idx + 1⟩ d hb hw hcount
          exact ⟨this.1, this.2.1, this.2.2⟩
        · rw [if_neg hi]
          refine ⟨by simp, ?_, ?_⟩
          · intro w' s' d' h
            simp only [Prod.mk.injEq] at h
            exact absurd h.1 (by simp)
          · intro e' w' s' d' h
            simp only [Prod.mk.injEq] at h
            have he' : e = e' := by
              have := h.1
              simp only [Outcome.err.injEq] at this
              exact this
            rw [← he']
            exact ⟨by simpa using hi, Or.inr ⟨s.idx, hresp⟩⟩
      | ok bytes =>
        have hchar := write_from_buffered_ok w s count d hb hcount bytes hresp
        have htl : (bytes.take count).length ≤ count := List.length_take_le _ _
        cases hn : (bytes.take count).length with
        | zero =>
          rw [hn] at hchar
          rw [loop_step_ok_zero n count w s d hc _ _ _ hchar]
          refine ⟨by simp, ?_, ?_⟩
          · intro w' s' d' h
            simp only [Prod.mk.injEq] at h
            exact absurd h.1 (by simp)
          · intro e' w' s' d' h
            simp only [Prod.mk.injEq] at h
            have he' : IoErr.writeZero = e' := by
              have := h.1
              simp only [Outcome.err.injEq] at this
              exact this
            rw [← he']
            exact ⟨rfl, Or.inl rfl⟩
        | succ m =>
          rw [hn] at hchar htl
          rw [loop_step_ok_succ n count m w s d hc _ _ _ hchar]
          have hmem : (writeAt w.mem w.len (bytes.take count)).length = w.mem.length := by
            rw [writeAt_length]
            unfold Writer.wf at hw
            unfold Writer.available_bytes at hcount
            rw [hn]
            omega
          have hw2 : Writer.wf
              { w with mem := writeAt w.mem w.len (bytes.take count),
                       len := w.len + (m + 1) } := by
            show w.len + (m + 1) ≤ (writeAt w.mem w.len (bytes.take count)).length
            rw [hmem]
            unfold Writer.wf at hw
            unfold Writer.available_bytes at hcount
            omega
          have hav2 : count - (m + 1) ≤ Writer.available_bytes
              { w with mem := writeAt w.mem w.len (bytes.take count),
                       len := w.len + (m + 1) } := by
            show count - (m + 1) ≤
              (writeAt w.mem w.len (bytes.take count)).length - (w.len + (m + 1))
            rw [hmem]
            unfold Writer.wf at hw
            unfold Writer.available_bytes at hcount
            omega
          have := ih (count - (m + 1))
            { w with mem := writeAt w.mem w.len (bytes.take count),
                     len := w.len + (m + 1) }
            ⟨s.resp, s.idx + 1⟩ d hb hw2 hav2
          refine ⟨this.1, ?_, this.2.2⟩
          intro w' s' d' h
          have r := this.2.1 w' s' d' h
          refine ⟨?_, r.2⟩
          have hwl : w'.len = w.len + (m + 1) + (count - (m + 1)) := r.1
          omega


/-- C8: on a buffered writer with at least `count` available bytes,
`write_all_from` loops `write_from` until exactly `count` bytes are
transferred (issuing no device call in buffered mode), never panics,
transparently retries `Interrupted` source errors (no surfaced error is ever
of `Interrupted` kind), fails with `WriteZero` on a stalled source, and any
other surfaced error is one the source itself returned. -/
theorem write_all_from_spec
    (w : Writer) (s : Src) (count : Nat) (d : Dev) (fuel : Nat)
    (hb : w.buffered = true) (hw : w.wf) (hcount : count ≤ w.available_bytes) :
    ((w.write_all_from s count d fuel).1 ≠ Outcome.panic)
    ∧ (∀ w' s' d',
        w.write_all_from s count d fuel = (Outcome.ok (), w', s', d') →
          w'.bytes_written = w.bytes_written + count ∧ d' = d)
    ∧ (∀ e w' s' d',
        w.write_all_from s count d fuel = (Outcome.err e, w', s', d') →
          IoErr.isInterrupted e = false ∧
            (e = IoErr.writeZero ∨ ∃ i, s.resp i = Except.error e)) := by
  unfold Writer.write_all_from
  rw [check_ok_of w count (Or.inl hb) hcount]
  exact writeAllFromLoop_spec fuel count w s d hb hw hcount

/-- C8 witness: with a source that is first interrupted, then produces 2 and 1
bytes, a buffered 4-byte writer transfers exactly 3 bytes. -/
theorem write_all_from_spec_witness :
    ((Writer.mk 0 true ([0, 0, 0, 0] : List Byte) 0).write_all_from
        ⟨fun i => if i = 0 then Except.error IoErr.interrupted
                  else if i = 1 then Except.ok [5, 6] else Except.ok [7], 0⟩
        3 ⟨fun _ _ => Except.error 5, 0, []⟩ 10).2.1.bytes_written =
      (Writer.mk 0 true ([0, 0, 0, 0] : List Byte) 0).bytes_written + 3 :=
  ((write_all_from_spec ⟨0, true, [0, 0, 0, 0], 0⟩
      ⟨fun i => if i = 0 then Except.error IoErr.interrupted
                else if i = 1 then Except.ok [5, 6] else Except.ok [7], 0⟩
      3 ⟨fun _ _ => Except.error 5, 0, []⟩ 10 rfl (by decide)
      (by decide)).2.1 _ _ _ rfl).1

/-- C8 counterexample: on an unbuffered writer with 4 available bytes,
`write_all_from` of 3 bytes from a source that supplies only 1 byte per read
does not loop until 3 bytes are transferred — the second iteration panics
through the assertion in `check_available_space`, because the first
write-through left `bytes_written` non-zero on an unbuffered writer. -/
theorem write_all_from_unbuffered_panics :
    3 ≤ (Writer.new 0 [0, 0, 0, 0]).available_bytes
    ∧ ((Writer.new 0 [0, 0, 0, 0]).write_all_from
        ⟨fun _ => Except.ok [5], 0⟩ 3 ⟨fun _ _ => Except.ok 1, 0, []⟩ 10).1 =
      Outcome.panic
    ∧ ((Writer.new 0 [0, 0, 0, 0]).write_all_from
        ⟨fun _ => Except.ok [5], 0⟩ 3 ⟨fun _ _ => Except.ok 1, 0, []⟩ 10).1 ≠
      Outcome.ok ()
    ∧ ((Writer.new 0 [0, 0, 0, 0]).write_all_from
        ⟨fun _ => Except.ok [5], 0⟩ 3 ⟨fun _ _ => Except.ok 1, 0, []⟩ 10).1 ≠
      Outcome.err IoErr.writeZero := by
  refine ⟨by decide, by decide, by decide, by decide⟩

end FuseDev
